import Mathlib

/-!
# Verification of the rotating, compressing log writer (`logger` package)

A shallow embedding of the Go `logger` package: the mutex-guarded logger
state becomes an explicit `LoggerState` record, the write/rotate paths
become state-passing functions, and all filesystem and clock effects are
supplied through explicit environment records (`RotEnv`, `CompressEnv`,
file-entry lists).  Calendar time is modeled as integers: an instant or a
day boundary (the value of Go's `Truncate(24*time.Hour)`) is an `Int`.
Byte sizes are modeled as exact integers: the Go code stores sizes in a
`float32`, but every value that ever reaches it is an integer byte count
(`info.Size()` and `len(message)` increments), so `Int` is the faithful
exact model.  Mutex acquisition/release is elided: all modeled code runs
under the logger's single mutex, so the sequential semantics is the
lock-serialized semantics.
-/

namespace RotLog

/-- An OS file handle as the logger sees it: whether `Close` has been called
on it, and the on-disk modification day its `Stat` reports (a day index,
i.e. the value of `ModTime().Truncate(24*time.Hour)`).  `Stat` on a closed
handle fails, which is how the Go code's `err == nil` guard is modeled. -/
structure FileHandle where
  closed : Bool
  modDay : Int
  deriving Repr, DecidableEq

/-- Destination of the `log.New` writer installed by `openLogFileUnsafe`:
the plain file, or an `io.MultiWriter(file, os.Stdout)`. -/
inductive OutputDest where
  | fileOnly
  | fileAndStdout
  deriving Repr, DecidableEq

/-- Background goroutines spawned by `rotate`. -/
inductive BgTask where
  | compressTask (path : String)
  | cleanTask
  deriving Repr, DecidableEq

/-- The two error exits of `rotate`. -/
inductive RotateError where
  | renameFailed
  | reopenFailed
  deriving Repr, DecidableEq

/-- Errors returned by `os.File.Close`: closing an already-closed handle
returns `os.ErrClosed`. -/
inductive GoError where
  | errClosed
  deriving Repr, DecidableEq

/-- The mutable fields of the Go `Logger` struct (minus the embedded
`log.Logger`, whose only modeled aspect is its output destination). -/
structure LoggerState where
  logPath : String
  file : Option FileHandle
  environment : String
  currentSize : Int
  maxSize : Int
  maxBackups : Int
  maxAge : Int
  compress : Bool
  currentDate : Int
  rotateDaily : Bool
  dailyTimer : Bool
  output : OutputDest
  deriving Repr, DecidableEq

/-!
## Path helpers

The Go code derives `dir`, `filename`, `ext`, `name` from `logPath` with
`filepath.Dir`, `filepath.Base`, `filepath.Ext` and `strings.TrimSuffix`.
These are modeled for clean slash-separated relative paths (no trailing
slash, no `..` segments), which covers every path the logger is given.
They are written over `List Char` by structural recursion so that concrete
instances evaluate inside the kernel.
-/

/-- Split a character list at its last `'/'`: returns
`(some dirChars, baseChars)` if a slash occurs, else `(none, allChars)`. -/
def dirBaseSplit : List Char → Option (List Char) × List Char
  | [] => (none, [])
  | ch :: rest =>
    match dirBaseSplit rest with
    | (some d, b) => (some (ch :: d), b)
    | (none, b) => if ch = '/' then (some [], b) else (none, ch :: b)

/-- `filepath.Dir` (for slash-free input Go returns `"."`). -/
def dirOf (p : String) : String :=
  match dirBaseSplit p.data with
  | (some d, _) => String.mk d
  | (none, _) => "."

/-- `filepath.Base`. -/
def baseOf (p : String) : String :=
  String.mk (dirBaseSplit p.data).2

/-- Split a filename at its last `'.'`: `(name, ext)` with
`name ++ ext = input` and `ext` starting at the final dot (empty if no
dot), matching `filepath.Ext` / `strings.TrimSuffix(filename, ext)`. -/
def extSplit : List Char → List Char × List Char
  | [] => ([], [])
  | ch :: rest =>
    let (n, e) := extSplit rest
    if e.isEmpty then
      if ch = '.' then ([], ch :: rest) else (ch :: n, [])
    else (ch :: n, e)

/-- `filepath.Ext` applied to a base filename. -/
def extOf (filename : String) : String :=
  String.mk (extSplit filename.data).2

/-- `strings.TrimSuffix(filename, filepath.Ext(filename))`. -/
def nameOf (filename : String) : String :=
  String.mk (extSplit filename.data).1

/-- `filepath.Join` for one directory and one clean file component. -/
def joinPath (dir file : String) : String :=
  dir ++ "/" ++ file

/-- `fmt.Sprintf("%03d", i)` for a positive counter. -/
def pad3 (i : Nat) : String :=
  if i < 10 then "00" ++ toString i
  else if i < 100 then "0" ++ toString i
  else toString i

/-!
## Rotation due-predicate, naming resolver, rotation engine, write path
-/

/-- `needsRotationUnsafe` (and its locking wrapper `needsRotation`):
size rotation when `maxSize > 0` and the running size plus the pending
message would exceed it, or, in daily mode, a date mismatch against the
logical date or (when that check passes and the handle is open) against
the open handle's on-disk modification day.  `today` is
`time.Now().Truncate(24*time.Hour)`. -/
def needsRotation (l : LoggerState) (today : Int) (messageSize : Nat) : Bool :=
  let sizeRotation := decide (0 < l.maxSize) && decide (l.maxSize < l.currentSize + (messageSize : Int))
  let dateRotation :=
    if l.rotateDaily then
      let d := decide (today ≠ l.currentDate)
      if !d then
        match l.file with
        | some f => if !f.closed then decide (f.modDay ≠ today) else false
        | none => false
      else d
    else false
  sizeRotation || dateRotation

/-- `fileExists`: `os.Stat` succeeds on the path itself, or, when
compression is enabled, on its `.gz` sibling.  The directory contents are
supplied as the predicate `fsE`. -/
def fileExists (l : LoggerState) (fsE : String → Bool) (filePath : String) : Bool :=
  if fsE filePath then true
  else if l.compress then fsE (filePath ++ ".gz")
  else false

/-- `getBackupPath`: try `<name>-<timestamp><ext>`, then
`<name>-<timestamp>-NNN<ext>` for `NNN = 001 .. maxAttempts`, and fall
back to the exists-check-free precision timestamp path.
`preciseTimestamp` is `time.Now().Format("2006-01-02-150405")`. -/
def getBackupPath (l : LoggerState) (fsE : String → Bool)
    (timestamp preciseTimestamp : String) : String :=
  let dir := dirOf l.logPath
  let filename := baseOf l.logPath
  let ext := extOf filename
  let name := nameOf filename
  let maxAttempts := if l.maxBackups ≤ 0 then 10 else l.maxBackups.toNat
  let baseName := name ++ "-" ++ timestamp
  let proposedPath := joinPath dir (baseName ++ ext)
  if !(fileExists l fsE proposedPath) then
    proposedPath
  else
    match (List.range' 1 maxAttempts).find?
        (fun i => !(fileExists l fsE (joinPath dir (name ++ "-" ++ timestamp ++ "-" ++ pad3 i ++ ext)))) with
    | some i => joinPath dir (name ++ "-" ++ timestamp ++ "-" ++ pad3 i ++ ext)
    | none => joinPath dir (name ++ "-" ++ preciseTimestamp ++ ext)

/-- The exists-check-free fallback path of `getBackupPath`. -/
def fallbackPath (l : LoggerState) (preciseTimestamp : String) : String :=
  joinPath (dirOf l.logPath) (nameOf (baseOf l.logPath) ++ "-" ++ preciseTimestamp ++ extOf (baseOf l.logPath))

/-- Outcomes of the clock and filesystem calls made on one pass through
the write/rotate path. -/
structure RotEnv where
  /-- `time.Now().Truncate(24*time.Hour)` as a day index. -/
  today : Int
  /-- `time.Now().Format("2006-01-02")`. -/
  todayStr : String
  /-- result of `analyzeFileContentForTimestamp` on the active file
  (`""` when no timestamp was inferred); the function itself is modeled
  separately on line lists. -/
  contentTs : String
  /-- directory contents consulted by `fileExists`. -/
  fsExists : String → Bool
  /-- `time.Now().Format("2006-01-02-150405")`. -/
  preciseTs : String
  /-- whether `os.Rename` succeeds. -/
  renameOk : Bool
  /-- `os.OpenFile` outcome: `some (size, modDay)` of the opened file. -/
  openResult : Option (Int × Int)
  /-- whether the `file.Stat()` call right after opening succeeds. -/
  statOk : Bool

/-- `openLogFileUnsafe`: close any previous handle (errors only logged,
the field keeps pointing at the closed handle), open the path
(create/append), on success re-derive size and logical date from the stat
info and install the output writer (console duplication only when the
environment is `"development"`).  Returns the new state and whether the
open succeeded. -/
def openLogFile (l : LoggerState) (env : RotEnv) : LoggerState × Bool :=
  let l0 :=
    match l.file with
    | some f => { l with file := some { f with closed := true } }
    | none => l
  match env.openResult with
  | none => (l0, false)
  | some info =>
    let l1 := { l0 with file := some { closed := false, modDay := info.2 } }
    let l2 :=
      if env.statOk then
        { l1 with
          currentSize := info.1
          currentDate := if 0 < info.1 then info.2 else env.today }
      else l1
    let out :=
      if l1.environment = "development" then OutputDest.fileAndStdout
      else OutputDest.fileOnly
    ({ l2 with output := out }, true)

/-- `rotate`: sync/close the handle (errors only logged), pick the backup
timestamp (content-inferred date preferred in daily mode), resolve the
backup path, rename; a rename failure aborts with the handle left `none`
and nothing spawned.  On success spawn compression (if enabled), reset
size and (in daily mode) date, reopen, and spawn the retention sweep.
Returns the state, the error exit, and the spawned background tasks. -/
def rotate (l : LoggerState) (env : RotEnv) : LoggerState × Option RotateError × List BgTask :=
  let l1 :=
    match l.file with
    | some _ => { l with file := none }
    | none => l
  let timestamp :=
    if l1.rotateDaily then
      if env.contentTs ≠ "" then env.contentTs else env.todayStr
    else env.todayStr
  let backupPath := getBackupPath l1 env.fsExists timestamp env.preciseTs
  if !env.renameOk then
    (l1, some RotateError.renameFailed, [])
  else
    let tasks := if l1.compress then [BgTask.compressTask backupPath] else []
    let l2 := { l1 with
      currentSize := 0
      currentDate := if l1.rotateDaily then env.today else l1.currentDate }
    match openLogFile l2 env with
    | (l3, false) => (l3, some RotateError.reopenFailed, tasks)
    | (l3, true) => (l3, none, tasks ++ [BgTask.cleanTask])

/-- The formatted message of `write`:
`fmt.Sprintf("[%s] %s", level, body)` where `body` is the caller's
already-formatted `fmt.Sprintf(format, v...)`. -/
def mkMessage (level body : String) : String :=
  "[" ++ level ++ "] " ++ body

/-- Everything one call to `write` produces: the new state, how many
rotations it performed, the rotation error it logged (never returned to
the caller), the background tasks spawned, and the messages appended to
the active output.  `write` has no error result and no panic exit, which
the total function type makes explicit. -/
structure WriteResult where
  state : LoggerState
  rotations : Nat
  rotateErr : Option RotateError
  tasks : List BgTask
  appended : List String
  deriving Repr

/-- `write`: format the message, consult the due-predicate with the
message's byte length, rotate if due (failures logged and swallowed),
then unconditionally print the message and bump the size counter. -/
def write (l : LoggerState) (env : RotEnv) (level body : String) : WriteResult :=
  let message := mkMessage level body
  if needsRotation l env.today message.utf8ByteSize then
    let r := rotate l env
    { state := { r.1 with currentSize := r.1.currentSize + (message.utf8ByteSize : Int) }
      rotations := 1
      rotateErr := r.2.1
      tasks := r.2.2
      appended := [message] }
  else
    { state := { l with currentSize := l.currentSize + (message.utf8ByteSize : Int) }
      rotations := 0
      rotateErr := none
      tasks := []
      appended := [message] }

/-- `Info`. -/
def Info (l : LoggerState) (env : RotEnv) (body : String) : WriteResult :=
  write l env "INFO" body

/-- `Error`. -/
def ErrorL (l : LoggerState) (env : RotEnv) (body : String) : WriteResult :=
  write l env "ERROR" body

/-- `Debug`. -/
def Debug (l : LoggerState) (env : RotEnv) (body : String) : WriteResult :=
  write l env "DEBUG" body

/-- `Warn`. -/
def Warn (l : LoggerState) (env : RotEnv) (body : String) : WriteResult :=
  write l env "WARN" body

/-- `HTTP`: `l.write("HTTP", "%s %s %d %s %s", ...)`. -/
def HTTP (l : LoggerState) (env : RotEnv) (method path : String) (statusCode : Int)
    (duration clientIP : String) : WriteResult :=
  write l env "HTTP"
    (method ++ " " ++ path ++ " " ++ toString statusCode ++ " " ++ duration ++ " " ++ clientIP)

/-- `Close`: stop and clear the daily timer, then close the active handle
if the field is non-nil.  The field itself is never cleared, so a second
call reaches `file.Close()` again and gets `os.ErrClosed`. -/
def Close (l : LoggerState) : LoggerState × Option GoError :=
  let l1 := { l with dailyTimer := false }
  match l.file with
  | none => (l1, none)
  | some f =>
    if f.closed then (l1, some GoError.errClosed)
    else ({ l1 with file := some { f with closed := true } }, none)

/-!
## Content Date Inferencer

`analyzeFileContentForTimestamp` / `extractTimestampFromLogLine` /
`extractTimeString`.  The file is modeled as its list of lines (what
`bufio.Scanner` yields).  `time.Parse` against the four fixed layouts is
modeled as strict fixed-position parsing with Go's field-range validation
(month 1–12, day within the month incl. leap years, hour ≤ 23,
minute/second ≤ 59); since each candidate has exactly the layout's
length, Go's parser accepts exactly these shapes.  Go's zero `time.Time`
(year 1, Jan 1, 00:00:00) is the failure sentinel, as in the source. -/

/-- A wall-clock timestamp, Go `time.Time` restricted to second
precision in UTC. -/
structure Timestamp where
  year : Int
  month : Nat
  day : Nat
  hour : Nat
  minute : Nat
  second : Nat
  deriving Repr, DecidableEq

/-- Go's zero `time.Time`: January 1, year 1, 00:00:00. -/
def zeroTimestamp : Timestamp :=
  { year := 1, month := 1, day := 1, hour := 0, minute := 0, second := 0 }

/-- Value of a decimal digit character. -/
def digitVal (c : Char) : Option Nat :=
  if '0' ≤ c ∧ c ≤ '9' then some (c.toNat - '0'.toNat) else none

/-- Two-digit decimal field. -/
def num2 (a b : Char) : Option Nat :=
  match digitVal a, digitVal b with
  | some x, some y => some (10 * x + y)
  | _, _ => none

/-- Four-digit decimal field. -/
def num4 (a b c d : Char) : Option Nat :=
  match num2 a b, num2 c d with
  | some x, some y => some (100 * x + y)
  | _, _ => none

/-- Go's proleptic-Gregorian leap-year rule. -/
def isLeapYear (y : Int) : Bool :=
  y % 4 = 0 && (y % 100 ≠ 0 || y % 400 = 0)

/-- Days in a month, as `time.Parse` validates them. -/
def daysInMonth (y : Int) (m : Nat) : Nat :=
  match m with
  | 1 => 31 | 2 => if isLeapYear y then 29 else 28
  | 3 => 31 | 4 => 30 | 5 => 31 | 6 => 30 | 7 => 31
  | 8 => 31 | 9 => 30 | 10 => 31 | 11 => 30 | 12 => 31
  | _ => 0

/-- `time.Parse`'s range validation of the parsed fields. -/
def mkValidTimestamp (y : Int) (mo d h mi s : Nat) : Option Timestamp :=
  if 1 ≤ mo ∧ mo ≤ 12 ∧ 1 ≤ d ∧ d ≤ daysInMonth y mo ∧ h ≤ 23 ∧ mi ≤ 59 ∧ s ≤ 59 then
    some { year := y, month := mo, day := d, hour := h, minute := mi, second := s }
  else none

/-- Parse a 19-character candidate against a numeric layout
`2006<dateSep>01<dateSep>02<dtSep>15:04:05`. -/
def parseNumericLayout (dateSep dtSep : Char) : List Char → Option Timestamp
  | [y1, y2, y3, y4, a, m1, m2, b, d1, d2, t, h1, h2, c1, n1, n2, c2, s1, s2] =>
    if a = dateSep ∧ b = dateSep ∧ t = dtSep ∧ c1 = ':' ∧ c2 = ':' then
      match num4 y1 y2 y3 y4, num2 m1 m2, num2 d1 d2, num2 h1 h2, num2 n1 n2, num2 s1 s2 with
      | some y, some mo, some d, some h, some mi, some s =>
        mkValidTimestamp (Int.ofNat y) mo d h mi s
      | _, _, _, _, _, _ => none
    else none
  | _ => none

/-- Month number from a three-letter English name, case-insensitively as
Go's layout matcher does. -/
def monthFromName (a b c : Char) : Option Nat :=
  match String.mk [a.toLower, b.toLower, c.toLower] with
  | "jan" => some 1 | "feb" => some 2 | "mar" => some 3 | "apr" => some 4
  | "may" => some 5 | "jun" => some 6 | "jul" => some 7 | "aug" => some 8
  | "sep" => some 9 | "oct" => some 10 | "nov" => some 11 | "dec" => some 12
  | _ => none

/-- Parse a 15-character candidate against `Jan 02 15:04:05`; the year is
0, as `time.Parse` yields for a layout without a year (year 0 is a leap
year, so `Feb 29` is accepted, as in Go). -/
def parseSyslogLayout : List Char → Option Timestamp
  | [a, b, c, sp1, d1, d2, sp2, h1, h2, c1, n1, n2, c2, s1, s2] =>
    if sp1 = ' ' ∧ sp2 = ' ' ∧ c1 = ':' ∧ c2 = ':' then
      match monthFromName a b c, num2 d1 d2, num2 h1 h2, num2 n1 n2, num2 s1 s2 with
      | some mo, some d, some h, some mi, some s => mkValidTimestamp 0 mo d h mi s
      | _, _, _, _, _ => none
    else none
  | _ => none

/-- `extractTimeString`: the line's first `len(pattern)` characters, or
the whole line when shorter. -/
def extractTimeString (line : List Char) (patternLen : Nat) : List Char :=
  if patternLen ≤ line.length then line.take patternLen else line

/-- `timestamp.AddDate(year - timestamp.Year(), 0, 0)`: move the parsed
year-0 syslog timestamp to the current year, with Go's normalization
(only `Feb 29` can overflow, to `Mar 1`). -/
def addYears (t : Timestamp) (target : Int) : Timestamp :=
  if t.day ≤ daysInMonth target t.month then { t with year := target }
  else { t with year := target, month := t.month + 1, day := t.day - daysInMonth target t.month }

/-- `extractTimestampFromLogLine`: try the four layouts in order on the
line's prefix; the syslog layout gets the current year; failure returns
the zero timestamp. -/
def extractTimestampFromLogLine (currentYear : Int) (line : String) : Timestamp :=
  match parseNumericLayout '/' ' ' (extractTimeString line.data 19) with
  | some t => t
  | none =>
  match parseNumericLayout '-' ' ' (extractTimeString line.data 19) with
  | some t => t
  | none =>
  match parseNumericLayout '-' 'T' (extractTimeString line.data 19) with
  | some t => t
  | none =>
  match parseSyslogLayout (extractTimeString line.data 15) with
  | some t => addYears t currentYear
  | none => zeroTimestamp

/-- `Truncate(24*time.Hour)` on a parsed UTC timestamp: its calendar
day. -/
def dayOf (t : Timestamp) : Int × Nat × Nat :=
  (t.year, t.month, t.day)

/-- Two-digit zero-padded field of `Format("2006-01-02")`. -/
def pad2 (n : Nat) : String :=
  if n < 10 then "0" ++ toString n else toString n

/-- Four-digit zero-padded year of `Format("2006-01-02")` (years in range
0–9999, which covers every parseable year). -/
def pad4 (y : Int) : String :=
  let n := y.toNat
  if n < 10 then "000" ++ toString n
  else if n < 100 then "00" ++ toString n
  else if n < 1000 then "0" ++ toString n
  else toString n

/-- `Format("2006-01-02")` of a day. -/
def formatDay (d : Int × Nat × Nat) : String :=
  pad4 d.1 ++ "-" ++ pad2 d.2.1 ++ "-" ++ pad2 d.2.2

/-- The scanning loop of `analyzeFileContentForTimestamp`: walk the
lines, remembering the first and latest successfully parsed timestamps
(`none` = nothing found yet). -/
def scanLines (currentYear : Int) : List String → Option (Timestamp × Timestamp) → Option (Timestamp × Timestamp)
  | [], acc => acc
  | ln :: rest, acc =>
    let t := extractTimestampFromLogLine currentYear ln
    let acc2 :=
      if t ≠ zeroTimestamp then
        match acc with
        | none => some (t, t)
        | some (f, _) => some (f, t)
      else acc
    scanLines currentYear rest acc2

/-- `analyzeFileContentForTimestamp`: scan at most the first 1000 lines;
no parse at all yields `""`; otherwise compare the first and last parsed
timestamps truncated to the day and format the chosen day. -/
def analyzeFileContentForTimestamp (currentYear : Int) (lines : List String) : String :=
  match scanLines currentYear (lines.take 1000) none with
  | none => ""
  | some (f, la) =>
    let firstDate := dayOf f
    let lastDate := dayOf la
    if firstDate = lastDate then formatDay firstDate
    else formatDay lastDate

/-- The timestamps the scanner accepts among the first 1000 lines, in
order (specification-side view used to state the claim). -/
def parsedTimestamps (currentYear : Int) (lines : List String) : List Timestamp :=
  (lines.take 1000).filterMap fun ln =>
    let t := extractTimestampFromLogLine currentYear ln
    if t ≠ zeroTimestamp then some t else none

/-!
## Retention Sweeper (`cleanOldLogs`)

The directory is modeled as a flat list of entries (path, size,
modification time); `filepath.Glob(dir/name-*)` is prefix matching on
that list.  Times are day-granular integers, so `now.AddDate(0,0,-maxAge)`
is `now - maxAge`.  `sort.Slice` with an `After` comparator is modeled by
insertion sort into descending modification-time order (the source's sort
is unstable, so tie order is unspecified there; the model fixes one
order, which is one of the permitted outcomes). -/

/-- A directory entry as `os.Stat` reports it. -/
structure FileEnt where
  path : String
  size : Int
  modTime : Int
  deriving Repr, DecidableEq

/-- The glob prefix `filepath.Join(dir, name+"-")` of the pattern
`name + "-*"`. -/
def backupPatternPrefix (l : LoggerState) : String :=
  joinPath (dirOf l.logPath) (nameOf (baseOf l.logPath) ++ "-")

/-- Whether a path matches the glob `dir/name-*`. -/
def matchesBackupPattern (l : LoggerState) (p : String) : Bool :=
  (backupPatternPrefix l).data.isPrefixOf p.data

/-- Whether a path ends in `.gz`. -/
def hasGzSuffix (p : String) : Bool :=
  ".gz".data.isSuffixOf p.data

/-- The candidate list of `cleanOldLogs`: glob matches minus zero-byte
`.gz` files. -/
def consideredFiles (l : LoggerState) (files : List FileEnt) : List FileEnt :=
  (files.filter fun f => matchesBackupPattern l f.path).filter
    fun f => !(hasGzSuffix f.path && f.size == 0)

/-- Insert into a list kept in descending modification-time order. -/
def insertByMod (f : FileEnt) : List FileEnt → List FileEnt
  | [] => [f]
  | g :: gs => if g.modTime < f.modTime then f :: g :: gs else g :: insertByMod f gs

/-- Sort by modification time, newest first. -/
def sortByModDesc : List FileEnt → List FileEnt
  | [] => []
  | f :: fs => insertByMod f (sortByModDesc fs)

/-- `cleanOldLogs`, returning the entries that survive the sweep: sort
the candidates newest-first; if `maxBackups > 0` and the count exceeds
it, delete everything beyond the newest `maxBackups`; then, if
`maxAge > 0`, delete whatever remains with modification time before
`now - maxAge` days. -/
def cleanOldLogs (l : LoggerState) (now : Int) (files : List FileEnt) : List FileEnt :=
  let logFiles := consideredFiles l files
  let sorted := sortByModDesc logFiles
  let afterCount :=
    if 0 < l.maxBackups ∧ l.maxBackups < (sorted.length : Int) then
      sorted.take l.maxBackups.toNat
    else sorted
  if 0 < l.maxAge then
    afterCount.filter fun f => !(f.modTime < now - l.maxAge)
  else afterCount

/-!
## Compression Worker (`compressFile`)

The filesystem is a partial map from paths to contents; the initial
`time.Sleep` is a no-op in the sequential model; gzip itself is stdlib
and modeled as an abstract injective stream transformation.  Each
fallible syscall's outcome is an oracle bit; every failure branch logs
and returns, leaving whatever partial state exists (no rollback). -/

/-- A flat filesystem: `some content` for existing files. -/
def FS : Type := String → Option String

/-- Point update of the filesystem. -/
def fsUpdate (fs : FS) (p : String) (v : Option String) : FS :=
  fun q => if q = p then v else fs q

/-- Abstract model of the gzip stream written for a given source
content. -/
def gzipOf (content : String) : String :=
  "gzip:" ++ content

/-- Outcomes of the fallible calls inside `compressFile`, plus the bytes
left in the `.gz` file when the copy or the gzip flush fails midway. -/
structure CompressEnv where
  statOk : Bool
  createOk : Bool
  copyOk : Bool
  gzCloseOk : Bool
  outCloseOk : Bool
  removeOk : Bool
  leftoverContent : String

/-- `compressFile`: open the source (missing file: log and return), stat
it, skip empty files entirely, create `path.gz` (truncating), stream the
gzip of the content into it, close the gzip writer and the output file,
and only after all of that succeeded remove the original.  Returns the
resulting filesystem and the internal log messages emitted. -/
def compressFile (fs : FS) (env : CompressEnv) (filePath : String) : FS × List String :=
  match fs filePath with
  | none => (fs, ["Error opening file for compression"])
  | some content =>
    if !env.statOk then (fs, ["Error getting file info"])
    else if content.utf8ByteSize = 0 then (fs, ["Skipping compression of empty file"])
    else if !env.createOk then (fs, ["Error creating compressed file"])
    else
      let gzPath := filePath ++ ".gz"
      let fs1 := fsUpdate fs gzPath (some "")
      if !env.copyOk then
        (fsUpdate fs1 gzPath (some env.leftoverContent), ["Error compressing file"])
      else if !env.gzCloseOk then
        (fsUpdate fs1 gzPath (some env.leftoverContent), ["Error finalizing compression"])
      else
        let fs2 := fsUpdate fs1 gzPath (some (gzipOf content))
        if !env.outCloseOk then (fs2, ["Error closing compressed file"])
        else if !env.removeOk then (fs2, ["remove failed"])
        else (fsUpdate fs2 filePath none, [])

/-!
## Configuration defaulting (`getLogConfig` and helpers)

The yaml-decoded `config.LoggingConfig` has a `float32` size in MB and
pointer-typed booleans; the `float32` is modeled as an exact rational. -/

/-- `config.LoggingConfig` (pointer fields as `Option`). -/
structure LoggingConfig where
  File : String
  Level : String
  MaxSize : ℚ
  MaxBackups : Int
  MaxAge : Int
  Compress : Option Bool
  RotateDaily : Option Bool
  deriving Repr, DecidableEq

/-- The normalized `LogConfig`. -/
structure LogConfig where
  File : String
  Level : String
  MaxSize : ℚ
  MaxBackups : Int
  MaxAge : Int
  Compress : Bool
  RotateDaily : Bool
  deriving Repr, DecidableEq

/-- `getStringOrDefault`. -/
def getStringOrDefault (value defaultValue : String) : String :=
  if value = "" then defaultValue else value

/-- `getFloat32OrDefault`. -/
def getFloat32OrDefault (value defaultValue : ℚ) : ℚ :=
  if value = 0 then defaultValue else value

/-- `getIntOrDefault`. -/
def getIntOrDefault (value defaultValue : Int) : Int :=
  if value = 0 then defaultValue else value

/-- `getLogConfig`: dereference the optional booleans (`true` / `false`
defaults) and replace empty/zero scalars by the defaults. -/
def getLogConfig (cfg : LoggingConfig) : LogConfig :=
  { File := getStringOrDefault cfg.File "logs/portfolio.log"
    MaxSize := getFloat32OrDefault cfg.MaxSize 10
    MaxBackups := getIntOrDefault cfg.MaxBackups 7
    MaxAge := getIntOrDefault cfg.MaxAge 30
    Compress := cfg.Compress.getD true
    Level := getStringOrDefault cfg.Level "info"
    RotateDaily := cfg.RotateDaily.getD false }

/-!
## Specification-side helper definitions

Named pieces of `getBackupPath` (used to state which branch produced a
result), the sort order of the sweeper, and the per-line acceptance
function of the content scanner.
-/

/-- The first-choice dated candidate `<dir>/<name>-<timestamp><ext>` of
`getBackupPath`. -/
def datedPath (l : LoggerState) (ts : String) : String :=
  joinPath (dirOf l.logPath) (nameOf (baseOf l.logPath) ++ "-" ++ ts ++ extOf (baseOf l.logPath))

/-- The numbered candidate `<dir>/<name>-<timestamp>-NNN<ext>` of
`getBackupPath`. -/
def numberedPath (l : LoggerState) (ts : String) (i : Nat) : String :=
  joinPath (dirOf l.logPath)
    (nameOf (baseOf l.logPath) ++ "-" ++ ts ++ "-" ++ pad3 i ++ extOf (baseOf l.logPath))

/-- `maxAttempts` of `getBackupPath`: `maxBackups`, or 10 when
non-positive. -/
def maxAttemptsOf (l : LoggerState) : Nat :=
  if l.maxBackups ≤ 0 then 10 else l.maxBackups.toNat

/-- Newest-first order on directory entries. -/
def newerEq (a b : FileEnt) : Prop := b.modTime ≤ a.modTime

/-- The per-line filter that the scanning loop applies, as `filterMap`
sees it. -/
def acceptLine (currentYear : Int) (ln : String) : Option Timestamp :=
  let t := extractTimestampFromLogLine currentYear ln
  if t ≠ zeroTimestamp then some t else none

/-!
## Concrete instances used by witnesses and counterexamples
-/

/-- A logger whose active file comfortably fits under its size limit. -/
def exFit : LoggerState :=
  { logPath := "logs/app.log", file := some { closed := false, modDay := 0 },
    environment := "production", currentSize := 0, maxSize := 100, maxBackups := 7,
    maxAge := 30, compress := false, currentDate := 0, rotateDaily := false,
    dailyTimer := false, output := OutputDest.fileOnly }

/-- The same logger with a size limit every write overflows. -/
def exOver : LoggerState :=
  { exFit with maxSize := 5 }

/-- An environment where every filesystem call succeeds. -/
def envOk : RotEnv :=
  { today := 0, todayStr := "2025-01-05", contentTs := "", fsExists := fun _ => false,
    preciseTs := "2025-01-05-142533", renameOk := true, openResult := some (0, 0),
    statOk := true }

/-- The same environment with a failing `os.Rename`. -/
def envFail : RotEnv :=
  { envOk with renameOk := false }

/-- Daily mode, logical date current, but the open handle's on-disk
modification day is stale. -/
def exStale : LoggerState :=
  { exFit with rotateDaily := true, file := some { closed := false, modDay := -1 } }

/-- A logger with an armed daily timer. -/
def exTimer : LoggerState :=
  { exFit with dailyTimer := true }

/-- A logger running in a non-production, non-development environment. -/
def exStaging : LoggerState :=
  { exFit with environment := "staging" }

/-- A logger running in the development environment. -/
def exDev : LoggerState :=
  { exFit with environment := "development" }

/-- A logger with `maxBackups = 1`, so `getBackupPath` tries exactly one
numbered candidate. -/
def exC4 : LoggerState :=
  { exFit with maxBackups := 1 }

/-- A directory in which the dated path, the single numbered candidate
and the precision-timestamp fallback all already exist. -/
def fsE4 : String → Bool := fun p =>
  p == "logs/app-2025-01-05.log" || p == "logs/app-2025-01-05-001.log" ||
  p == "logs/app-2025-01-05-142533.log"

/-- An empty directory. -/
def fsEa : String → Bool := fun _ => false

/-- A directory containing exactly the dated backup path. -/
def fsEb : String → Bool := fun p => p == "logs/app-2025-01-05.log"

/-- A logger with `maxBackups = 2` for the sweep witness. -/
def exC5 : LoggerState :=
  { exFit with maxBackups := 2 }

/-- A logger with both retention limits negative. -/
def exNeg : LoggerState :=
  { exFit with maxBackups := -1, maxAge := -1 }

/-- Directory entries: two plain backups and one zero-byte `.gz`
artifact. -/
def dirFilesW : List FileEnt :=
  [ { path := "logs/app-2025-01-01.log", size := 5, modTime := 1 },
    { path := "logs/app-2025-01-02.log", size := 5, modTime := 2 },
    { path := "logs/app-2025-01-04.log.gz", size := 0, modTime := 4 } ]

/-- A log file whose scanned lines carry timestamps of one day, with an
unparseable line in between. -/
def linesC6 : List String :=
  ["2025-01-05 08:00:00 server start", "free-form text", "2025/01/05 09:30:00 request"]

/-- A filesystem with one non-empty and one empty rotated file. -/
def fsC7 : FS := fun q =>
  if q = "logs/app-2025-01-05.log" then some "payload"
  else if q = "logs/empty-2025-01-05.log" then some "" else none

/-- A compression run in which every syscall succeeds. -/
def envC7 : CompressEnv :=
  { statOk := true, createOk := true, copyOk := true, gzCloseOk := true,
    outCloseOk := true, removeOk := true, leftoverContent := "" }

/-- A configuration with every scalar left at zero/empty. -/
def cfgZero : LoggingConfig :=
  { File := "", Level := "", MaxSize := 0, MaxBackups := 0, MaxAge := 0,
    Compress := none, RotateDaily := none }

end RotLog

namespace RotLog

/-!
## Helper lemmas
-/

theorem write_appended_eq (l : LoggerState) (env : RotEnv) (level body : String) :
    (write l env level body).appended = [mkMessage level body] := by
  rcases h : needsRotation l env.today (mkMessage level body).utf8ByteSize <;> simp [write, h]

theorem write_rotations_eq_one_iff (l : LoggerState) (env : RotEnv) (level body : String) :
    (write l env level body).rotations = 1 ↔
      needsRotation l env.today (mkMessage level body).utf8ByteSize = true := by
  rcases h : needsRotation l env.today (mkMessage level body).utf8ByteSize <;> simp [write, h]

theorem write_rotations_eq_zero_iff (l : LoggerState) (env : RotEnv) (level body : String) :
    (write l env level body).rotations = 0 ↔
      needsRotation l env.today (mkMessage level body).utf8ByteSize = false := by
  rcases h : needsRotation l env.today (mkMessage level body).utf8ByteSize <;> simp [write, h]

theorem needsRotation_iff (l : LoggerState) (today : Int) (s : Nat) :
    needsRotation l today s = true ↔
      ((0 < l.maxSize ∧ l.maxSize < l.currentSize + (s : Int)) ∨
       (l.rotateDaily = true ∧ today ≠ l.currentDate) ∨
       (l.rotateDaily = true ∧ ∃ f, l.file = some f ∧ f.closed = false ∧ f.modDay ≠ today)) := by
  rcases hf : l.file with _ | f
  · rcases hd : l.rotateDaily <;>
      by_cases ht : today = l.currentDate <;>
      simp [needsRotation, hf, hd, ht]
  · rcases hd : l.rotateDaily <;>
      rcases hc : f.closed <;>
      by_cases ht : today = l.currentDate <;>
      simp [needsRotation, hf, hd, hc, ht]

theorem rotate_rename_fail (l : LoggerState) (env : RotEnv) (h : env.renameOk = false) :
    (rotate l env).1.file = none ∧
    (rotate l env).1.currentSize = l.currentSize ∧
    (rotate l env).1.currentDate = l.currentDate ∧
    (rotate l env).2.1 = some RotateError.renameFailed ∧
    (rotate l env).2.2 = [] ∧
    (rotate l env).1.maxSize = l.maxSize := by
  rcases hf : l.file <;> simp [rotate, hf, h]

theorem getBackupPath_eq (l : LoggerState) (fsE : String → Bool) (ts pts : String) :
    getBackupPath l fsE ts pts =
      if !(fileExists l fsE (datedPath l ts)) then datedPath l ts
      else
        match (List.range' 1 (maxAttemptsOf l)).find?
            (fun i => !(fileExists l fsE (numberedPath l ts i))) with
        | some i => numberedPath l ts i
        | none => fallbackPath l pts := rfl

theorem fileExists_eq_false (l : LoggerState) (fsE : String → Bool) (p : String)
    (h : fileExists l fsE p = false) :
    fsE p = false ∧ (l.compress = true → fsE (p ++ ".gz") = false) := by
  unfold fileExists at h
  rcases he : fsE p
  · rcases hc : l.compress <;> simp [he, hc] at h <;> simp [hc, h]
  · simp [he] at h

theorem getBackupPath_cases (l : LoggerState) (fsE : String → Bool) (ts pts : String) :
    getBackupPath l fsE ts pts = fallbackPath l pts ∨
    fileExists l fsE (getBackupPath l fsE ts pts) = false := by
  rw [getBackupPath_eq]
  split
  · rename_i h
    simp only [Bool.not_eq_true'] at h
    exact Or.inr h
  · split
    · rename_i i h
      have hp := List.find?_some h
      simp only [Bool.not_eq_true'] at hp
      exact Or.inr hp
    · exact Or.inl rfl

theorem gz_path_ne (p : String) : p ++ ".gz" ≠ p := by
  intro h
  have hlen := congrArg String.length h
  rw [String.length_append] at hlen
  have h3 : ".gz".length = 3 := rfl
  omega

theorem mem_insertByMod {a f : FileEnt} {l : List FileEnt} :
    a ∈ insertByMod f l ↔ a = f ∨ a ∈ l := by
  induction l with
  | nil => simp [insertByMod]
  | cons g gs ih =>
    by_cases h : g.modTime < f.modTime
    · simp [insertByMod, h]
    · simp only [insertByMod, if_neg h, List.mem_cons, ih]
      tauto

theorem mem_sortByModDesc {a : FileEnt} {l : List FileEnt} :
    a ∈ sortByModDesc l ↔ a ∈ l := by
  induction l with
  | nil => simp [sortByModDesc]
  | cons f fs ih => simp [sortByModDesc, mem_insertByMod, ih]

theorem pairwise_insertByMod {f : FileEnt} {l : List FileEnt}
    (h : l.Pairwise newerEq) : (insertByMod f l).Pairwise newerEq := by
  induction l with
  | nil => simp [insertByMod, List.pairwise_singleton]
  | cons g gs ih =>
    rcases List.pairwise_cons.mp h with ⟨hg, hgs⟩
    by_cases hlt : g.modTime < f.modTime
    · simp only [insertByMod, if_pos hlt]
      refine List.pairwise_cons.mpr ⟨?_, h⟩
      intro b hb
      rcases List.mem_cons.mp hb with rfl | hb
      · exact le_of_lt hlt
      · exact le_trans (hg b hb) (le_of_lt hlt)
    · simp only [insertByMod, if_neg hlt]
      refine List.pairwise_cons.mpr ⟨?_, ih hgs⟩
      intro b hb
      rcases mem_insertByMod.mp hb with rfl | hb
      · exact le_of_not_lt hlt
      · exact hg b hb

theorem pairwise_sortByModDesc (l : List FileEnt) :
    (sortByModDesc l).Pairwise newerEq := by
  induction l with
  | nil => simp [sortByModDesc]
  | cons f fs ih => exact pairwise_insertByMod ih

theorem mem_consideredFiles {l : LoggerState} {files : List FileEnt} {f : FileEnt} :
    f ∈ consideredFiles l files ↔
      f ∈ files ∧ matchesBackupPattern l f.path = true ∧
      ¬(hasGzSuffix f.path = true ∧ f.size = 0) := by
  simp only [consideredFiles, List.mem_filter, Bool.not_eq_true', Bool.and_eq_false_iff,
    beq_eq_false_iff_ne, ne_eq, Bool.not_eq_true]
  constructor
  · rintro ⟨⟨hm, hp⟩, hq⟩
    refine ⟨hm, hp, ?_⟩
    rintro ⟨hgz, hsz⟩
    rcases hq with hq | hq
    · rw [hq] at hgz; cases hgz
    · exact hq hsz
  · rintro ⟨hm, hp, hq⟩
    refine ⟨⟨hm, hp⟩, ?_⟩
    by_cases hgz : hasGzSuffix f.path = true
    · exact Or.inr fun hsz => hq ⟨hgz, hsz⟩
    · exact Or.inl (Bool.not_eq_true _ |>.mp hgz)

theorem parsedTimestamps_eq (currentYear : Int) (lines : List String) :
    parsedTimestamps currentYear lines = (lines.take 1000).filterMap (acceptLine currentYear) := rfl

theorem scanLines_some (currentYear : Int) (ls : List String) (f la : Timestamp) :
    scanLines currentYear ls (some (f, la)) =
      some (f, (ls.filterMap (acceptLine currentYear)).getLastD la) := by
  induction ls generalizing la with
  | nil => rfl
  | cons ln rest ih =>
    by_cases ht : extractTimestampFromLogLine currentYear ln = zeroTimestamp
    · simp only [scanLines, acceptLine, List.filterMap_cons, ht, ne_eq, not_true_eq_false,
        if_false, ite_not]
      simpa [acceptLine] using ih la
    · simp only [scanLines, acceptLine, List.filterMap_cons, ht, ne_eq, not_false_eq_true,
        if_true, ite_not]
      rw [List.getLastD_cons]
      exact ih (extractTimestampFromLogLine currentYear ln)

theorem scanLines_none (currentYear : Int) (ls : List String) :
    scanLines currentYear ls none =
      match ls.filterMap (acceptLine currentYear) with
      | [] => none
      | t :: rest => some (t, rest.getLastD t) := by
  induction ls with
  | nil => rfl
  | cons ln rest ih =>
    by_cases ht : extractTimestampFromLogLine currentYear ln = zeroTimestamp
    · simp only [scanLines, ht, ne_eq, not_true_eq_false, if_false]
      rw [ih]
      simp [acceptLine, List.filterMap_cons, ht]
    · simp only [scanLines, ht, ne_eq, not_false_eq_true, if_true]
      rw [scanLines_some]
      simp [acceptLine, List.filterMap_cons, ht]

end RotLog

namespace RotLog

/-!
## Claims
-/

/-- C1: the rotation due-predicate holds exactly when the size check
(`maxSize > 0` and `currentSize + messageSize > maxSize`), the daily
logical-date check, or the daily stale-handle modification-day check
fires; consequently, with daily mode off, a write whose message still
fits triggers no rotation, and a write that would exceed the limit
triggers exactly one rotation before the message is appended. -/
theorem C1_due_predicate (l : LoggerState) (today : Int) (s : Nat)
    (env : RotEnv) (level body : String) :
    (needsRotation l today s = true ↔
      ((0 < l.maxSize ∧ l.maxSize < l.currentSize + (s : Int)) ∨
       (l.rotateDaily = true ∧ today ≠ l.currentDate) ∨
       (l.rotateDaily = true ∧ ∃ f, l.file = some f ∧ f.closed = false ∧ f.modDay ≠ today))) ∧
    (l.rotateDaily = false →
      (l.currentSize + ((mkMessage level body).utf8ByteSize : Int) ≤ l.maxSize →
        (write l env level body).rotations = 0) ∧
      (0 < l.maxSize → l.maxSize < l.currentSize + ((mkMessage level body).utf8ByteSize : Int) →
        (write l env level body).rotations = 1 ∧
        (write l env level body).appended = [mkMessage level body])) := by
  refine ⟨needsRotation_iff l today s, fun hd => ⟨fun hle => ?_, fun hpos hlt => ?_⟩⟩
  · rw [write_rotations_eq_zero_iff]
    rcases h : needsRotation l env.today (mkMessage level body).utf8ByteSize
    · rfl
    · rcases (needsRotation_iff l env.today (mkMessage level body).utf8ByteSize).mp h with
        ⟨_, hs⟩ | ⟨hdt, _⟩ | ⟨hdt, _⟩
      · exact absurd hs (not_lt.mpr hle)
      · rw [hd] at hdt; exact absurd hdt (by simp)
      · rw [hd] at hdt; exact absurd hdt (by simp)
  · refine ⟨?_, write_appended_eq l env level body⟩
    rw [write_rotations_eq_one_iff]
    exact (needsRotation_iff l env.today (mkMessage level body).utf8ByteSize).mpr
      (Or.inl ⟨hpos, hlt⟩)

theorem C1_witness :
    (write exFit envOk "INFO" "x").rotations = 0 ∧
    (write exOver envOk "INFO" "x").rotations = 1 ∧
    (write exOver envOk "INFO" "x").appended = [mkMessage "INFO" "x"] := by
  refine ⟨((C1_due_predicate exFit 0 0 envOk "INFO" "x").2 rfl).1 (by decide), ?_, ?_⟩
  · exact (((C1_due_predicate exOver 0 0 envOk "INFO" "x").2 rfl).2 (by decide) (by decide)).1
  · exact (((C1_due_predicate exOver 0 0 envOk "INFO" "x").2 rfl).2 (by decide) (by decide)).2

/-- C2: every leveled write method (`Info`, `Warn`, `Error`, `Debug`,
`HTTP`) is total — it returns no error and has no panic exit — and
appends exactly the formatted `[LEVEL] message` line regardless of
rotation or I/O failures; a rename failure during the triggered rotation
is only logged (recorded in `rotateErr`), never surfaced, and the message
is still appended. -/
theorem C2_writes_never_fail (l : LoggerState) (env : RotEnv)
    (body method path duration ip : String) (code : Int) :
    (Info l env body).appended = [mkMessage "INFO" body] ∧
    (Warn l env body).appended = [mkMessage "WARN" body] ∧
    (ErrorL l env body).appended = [mkMessage "ERROR" body] ∧
    (Debug l env body).appended = [mkMessage "DEBUG" body] ∧
    (HTTP l env method path code duration ip).appended =
      [mkMessage "HTTP" (method ++ " " ++ path ++ " " ++ toString code ++ " " ++ duration ++ " " ++ ip)] ∧
    (env.renameOk = false → (write l env "INFO" body).rotations = 1 →
      (write l env "INFO" body).rotateErr = some RotateError.renameFailed) := by
  refine ⟨write_appended_eq .., write_appended_eq .., write_appended_eq ..,
    write_appended_eq .., write_appended_eq .., fun hren hrot => ?_⟩
  rcases h : needsRotation l env.today (mkMessage "INFO" body).utf8ByteSize
  · rw [write_rotations_eq_one_iff, h] at hrot
    exact absurd hrot (by simp)
  · simp only [write, h, if_true]
    simpa using (rotate_rename_fail l env hren).2.2.2.1

theorem C2_witness :
    (Info exFit envOk "hello").appended = [mkMessage "INFO" "hello"] ∧
    (write exOver envFail "INFO" "hello").rotateErr = some RotateError.renameFailed := by
  refine ⟨(C2_writes_never_fail exFit envOk "hello" "GET" "/" "1ms" "ip" 200).1, ?_⟩
  exact (C2_writes_never_fail exOver envFail "hello" "GET" "/" "1ms" "ip" 200).2.2.2.2.2
    rfl (by decide)

/-- C3 counterexample: in daily mode with `currentDate = today` but a
stale on-disk modification day, rotation is due; the rename fails and the
error is returned with the handle left `none`; but the subsequent write
finds the due-predicate false (the stale-handle check needs an open
handle), performs no rotation, and therefore never attempts to reopen the
file — refuting "a subsequent write attempt will try to reopen the
file". -/
theorem C3_counterexample :
    needsRotation exStale 0 8 = true ∧
    (rotate exStale envFail).2.1 = some RotateError.renameFailed ∧
    (write (rotate exStale envFail).1 envFail "INFO" "x").rotations = 0 := by
  decide

/-- C3 (amended): a rename failure makes `rotate` return the error with
the handle left closed (`none`), size and logical date unchanged, and no
compression or retention task spawned; a subsequent write retries
rotation — the only path that reopens the file — exactly when the
due-predicate still holds on the post-failure state, which is always the
case when the failed rotation was size-triggered. -/
theorem C3_rename_failure (l : LoggerState) (env envNext : RotEnv) (level body : String)
    (h : env.renameOk = false) :
    (rotate l env).2.1 = some RotateError.renameFailed ∧
    (rotate l env).1.file = none ∧
    (rotate l env).1.currentSize = l.currentSize ∧
    (rotate l env).1.currentDate = l.currentDate ∧
    (rotate l env).2.2 = [] ∧
    ((write (rotate l env).1 envNext level body).rotations = 1 ↔
      needsRotation (rotate l env).1 envNext.today (mkMessage level body).utf8ByteSize = true) ∧
    (0 < l.maxSize → l.maxSize < l.currentSize + ((mkMessage level body).utf8ByteSize : Int) →
      (write (rotate l env).1 envNext level body).rotations = 1) := by
  obtain ⟨h1, h2, h3, h4, h5, h6⟩ := rotate_rename_fail l env h
  refine ⟨h4, h1, h2, h3, h5, write_rotations_eq_one_iff .., fun hpos hlt => ?_⟩
  rw [write_rotations_eq_one_iff]
  refine (needsRotation_iff ..).mpr (Or.inl ?_)
  rw [h6, h2]
  exact ⟨hpos, hlt⟩

theorem C3_witness :
    (rotate exOver envFail).2.1 = some RotateError.renameFailed ∧
    (rotate exOver envFail).1.file = none ∧
    (write (rotate exOver envFail).1 envFail "INFO" "hello").rotations = 1 := by
  obtain ⟨a, b, _, _, _, _, g⟩ :=
    C3_rename_failure exOver envFail envFail "INFO" "hello" rfl
  exact ⟨a, b, g (by decide) (by decide)⟩

/-- C4 counterexample: when the dated path and every numbered candidate
are taken and the precision-timestamp fallback also already exists,
`getBackupPath` returns that existing path — the fallback is handed back
without any existence check, refuting "never returns a path that names an
existing plain file". -/
theorem C4_counterexample :
    fsE4 (getBackupPath exC4 fsE4 "2025-01-05" "2025-01-05-142533") = true := by
  decide

/-- C4 (amended): `getBackupPath` returns either the exists-check-free
precision-timestamp fallback (only reached when the dated and all
numbered candidates are taken, and itself possibly colliding) or a path
that names no existing plain file nor, when compression is enabled, an
existing `.gz` counterpart; and two successive calls for the same date
return distinct paths provided the first result was created in between
and neither call resolves to the fallback. -/
theorem C4_backup_naming :
    (∀ (l : LoggerState) (fsE : String → Bool) (ts pts : String),
      getBackupPath l fsE ts pts = fallbackPath l pts ∨
      (fsE (getBackupPath l fsE ts pts) = false ∧
       (l.compress = true → fsE (getBackupPath l fsE ts pts ++ ".gz") = false))) ∧
    (∀ (l : LoggerState) (fsE fsE2 : String → Bool) (ts pts pts2 : String),
      getBackupPath l fsE ts pts ≠ fallbackPath l pts →
      fsE2 (getBackupPath l fsE ts pts) = true →
      getBackupPath l fsE2 ts pts2 ≠ fallbackPath l pts2 →
      getBackupPath l fsE ts pts ≠ getBackupPath l fsE2 ts pts2) := by
  constructor
  · intro l fsE ts pts
    rcases getBackupPath_cases l fsE ts pts with h | h
    · exact Or.inl h
    · exact Or.inr (fileExists_eq_false l fsE _ h)
  · intro l fsE fsE2 ts pts pts2 h1 h2 h3 heq
    rcases getBackupPath_cases l fsE2 ts pts2 with h | h
    · exact h3 h
    · have hp := (fileExists_eq_false l fsE2 _ h).1
      rw [← heq, h2] at hp
      simp at hp

theorem C4_witness :
    (getBackupPath exC4 fsEa "2025-01-05" "p" = fallbackPath exC4 "p" ∨
      (fsEa (getBackupPath exC4 fsEa "2025-01-05" "p") = false ∧
       (exC4.compress = true →
         fsEa (getBackupPath exC4 fsEa "2025-01-05" "p" ++ ".gz") = false))) ∧
    getBackupPath exC4 fsEa "2025-01-05" "p" ≠ getBackupPath exC4 fsEb "2025-01-05" "q" := by
  refine ⟨C4_backup_naming.1 exC4 fsEa "2025-01-05" "p", ?_⟩
  exact C4_backup_naming.2 exC4 fsEa fsEb "2025-01-05" "p" "q"
    (by decide) (by decide) (by decide)

end RotLog

namespace RotLog

/-- C5: the retention sweep considers exactly the glob matches minus
zero-byte `.gz` artifacts; with `maxBackups = N > 0`, after the sweep at
most `N` of them survive, every survivor is among the `N` newest (by
modification time) of the considered set, every survivor is at least as
recent as every considered file outside that newest-`N` window, and when
`maxAge > 0` no survivor is older than `now - maxAge` days. -/
theorem C5_retention_sweep (l : LoggerState) (now : Int) (files : List FileEnt)
    (hN : 0 < l.maxBackups) :
    (∀ f, f ∈ consideredFiles l files ↔
       f ∈ files ∧ matchesBackupPattern l f.path = true ∧
       ¬(hasGzSuffix f.path = true ∧ f.size = 0)) ∧
    ((cleanOldLogs l now files).length : Int) ≤ l.maxBackups ∧
    (∀ f ∈ cleanOldLogs l now files,
       f ∈ (sortByModDesc (consideredFiles l files)).take l.maxBackups.toNat) ∧
    (∀ f ∈ cleanOldLogs l now files, ∀ g ∈ consideredFiles l files,
       g ∉ (sortByModDesc (consideredFiles l files)).take l.maxBackups.toNat →
       g.modTime ≤ f.modTime) ∧
    (0 < l.maxAge → ∀ f ∈ cleanOldLogs l now files, now - l.maxAge ≤ f.modTime) := by
  have hmemtake : ∀ f ∈ cleanOldLogs l now files,
      f ∈ (sortByModDesc (consideredFiles l files)).take l.maxBackups.toNat := by
    intro f hf
    unfold cleanOldLogs at hf
    by_cases hage : 0 < l.maxAge
    · rw [if_pos hage] at hf
      have hf2 := (List.mem_filter.mp hf).1
      by_cases hc : 0 < l.maxBackups ∧ l.maxBackups < ((sortByModDesc (consideredFiles l files)).length : Int)
      · rwa [if_pos hc] at hf2
      · rw [if_neg hc] at hf2
        have hlen : ((sortByModDesc (consideredFiles l files)).length : Int) ≤ l.maxBackups := by
          by_contra hcon
          exact hc ⟨hN, lt_of_not_le hcon⟩
        have hle : (sortByModDesc (consideredFiles l files)).length ≤ l.maxBackups.toNat := by
          omega
        rwa [List.take_of_length_le hle]
    · rw [if_neg hage] at hf
      by_cases hc : 0 < l.maxBackups ∧ l.maxBackups < ((sortByModDesc (consideredFiles l files)).length : Int)
      · rwa [if_pos hc] at hf
      · rw [if_neg hc] at hf
        have hlen : ((sortByModDesc (consideredFiles l files)).length : Int) ≤ l.maxBackups := by
          by_contra hcon
          exact hc ⟨hN, lt_of_not_le hcon⟩
        have hle : (sortByModDesc (consideredFiles l files)).length ≤ l.maxBackups.toNat := by
          omega
        rwa [List.take_of_length_le hle]
  refine ⟨fun f => mem_consideredFiles, ?_, hmemtake, ?_, ?_⟩
  · have hlenle : (cleanOldLogs l now files).length ≤
        ((sortByModDesc (consideredFiles l files)).take l.maxBackups.toNat).length := by
      unfold cleanOldLogs
      by_cases hage : 0 < l.maxAge <;>
        by_cases hc : 0 < l.maxBackups ∧
          l.maxBackups < ((sortByModDesc (consideredFiles l files)).length : Int)
      · rw [if_pos hage, if_pos hc]
        exact List.length_filter_le _ _
      · rw [if_pos hage, if_neg hc]
        have hlen : (sortByModDesc (consideredFiles l files)).length ≤ l.maxBackups.toNat := by
          by_cases h2 : l.maxBackups < ((sortByModDesc (consideredFiles l files)).length : Int)
          · exact absurd ⟨hN, h2⟩ hc
          · omega
        rw [List.take_of_length_le hlen]
        exact List.length_filter_le _ _
      · rw [if_neg hage, if_pos hc]
      · rw [if_neg hage, if_neg hc]
        have hlen : (sortByModDesc (consideredFiles l files)).length ≤ l.maxBackups.toNat := by
          by_cases h2 : l.maxBackups < ((sortByModDesc (consideredFiles l files)).length : Int)
          · exact absurd ⟨hN, h2⟩ hc
          · omega
        rw [List.take_of_length_le hlen]
    have htk := List.length_take l.maxBackups.toNat (sortByModDesc (consideredFiles l files))
    omega
  · intro f hf g hg hgout
    have hfin := hmemtake f hf
    have hgsorted : g ∈ sortByModDesc (consideredFiles l files) := mem_sortByModDesc.mpr hg
    have hsplit := List.take_append_drop l.maxBackups.toNat (sortByModDesc (consideredFiles l files))
    have hpw := pairwise_sortByModDesc (consideredFiles l files)
    rw [← hsplit] at hpw hgsorted
    rcases List.mem_append.mp hgsorted with hgin | hgdrop
    · exact absurd hgin hgout
    · exact (List.pairwise_append.mp hpw).2.2 f hfin g hgdrop
  · intro hage f hf
    unfold cleanOldLogs at hf
    rw [if_pos hage] at hf
    have hpred := (List.mem_filter.mp hf).2
    simp only [Bool.not_eq_true', decide_eq_false_iff_not, not_lt] at hpred
    omega

theorem C5_witness :
    ((cleanOldLogs exC5 10 dirFilesW).length : Int) ≤ exC5.maxBackups ∧
    ((⟨"logs/app-2025-01-04.log.gz", 0, 4⟩ : FileEnt) ∈ consideredFiles exC5 dirFilesW →
      False) := by
  have h := C5_retention_sweep exC5 10 dirFilesW (by decide)
  refine ⟨h.2.1, fun hmem => ?_⟩
  exact ((h.1 _).mp hmem).2.2 ⟨by decide, rfl⟩

/-- C6: the content-date inferencer scans at most the first 1000 lines
with the four ordered timestamp layouts; when nothing parses it returns
`""` (the caller then falls back to today's date); when something parses,
it returns the first parsed timestamp's day if the first and last parsed
timestamps share a day, and the last parsed timestamp's day otherwise,
formatted `YYYY-MM-DD` — so a file whose scanned lines all carry
timestamps of `2025-01-05` yields `"2025-01-05"`. -/
theorem C6_content_date (currentYear : Int) (lines : List String) :
    (parsedTimestamps currentYear lines = [] →
      analyzeFileContentForTimestamp currentYear lines = "") ∧
    (∀ t1 tn, (parsedTimestamps currentYear lines).head? = some t1 →
      (parsedTimestamps currentYear lines).getLast? = some tn →
      analyzeFileContentForTimestamp currentYear lines =
        if dayOf t1 = dayOf tn then formatDay (dayOf t1) else formatDay (dayOf tn)) := by
  constructor
  · intro hempty
    rw [parsedTimestamps_eq] at hempty
    unfold analyzeFileContentForTimestamp
    rw [scanLines_none, hempty]
  · intro t1 tn h1 hn
    rw [parsedTimestamps_eq] at h1 hn
    unfold analyzeFileContentForTimestamp
    rw [scanLines_none]
    rcases hp : (lines.take 1000).filterMap (acceptLine currentYear) with _ | ⟨t, rest⟩
    · rw [hp] at h1; cases h1
    · rw [hp] at h1 hn
      have ht1 : t1 = t := by simpa using h1.symm
      have htn : tn = rest.getLastD t := by
        rw [List.getLast?_cons] at hn
        rw [← List.getLastD_eq_getLast?] at hn
        simpa using hn.symm
      rw [ht1, htn]

theorem C6_witness :
    analyzeFileContentForTimestamp 2025 linesC6 = "2025-01-05" ∧
    analyzeFileContentForTimestamp 2025 ["free-form text"] = "" := by
  constructor
  · have h := (C6_content_date 2025 linesC6).2
      { year := 2025, month := 1, day := 5, hour := 8, minute := 0, second := 0 }
      { year := 2025, month := 1, day := 5, hour := 9, minute := 30, second := 0 }
      (by decide) (by decide)
    rw [h]
    decide
  · exact (C6_content_date 2025 ["free-form text"]).1 (by decide)

/-- C7: after the fixed delay (a no-op in the sequential model), a
zero-byte source is left exactly as it is — no `.gz` is created and the
original stays uncompressed; a non-empty source is streamed
gzip-compressed into `path + ".gz"` and the original is removed only when
every step succeeded; and a failure mid-copy is logged and leaves the
partial state — original intact, partially written `.gz` present —
without rollback. -/
theorem C7_compress_worker (fs : FS) (env : CompressEnv) (p c : String)
    (hp : fs p = some c) :
    (env.statOk = true → c.utf8ByteSize = 0 → (compressFile fs env p).1 = fs) ∧
    (env.statOk = true → env.createOk = true → env.copyOk = true → env.gzCloseOk = true →
      env.outCloseOk = true → env.removeOk = true → 0 < c.utf8ByteSize →
      (compressFile fs env p).1 p = none ∧
      (compressFile fs env p).1 (p ++ ".gz") = some (gzipOf c) ∧
      (∀ q, q ≠ p → q ≠ p ++ ".gz" → (compressFile fs env p).1 q = fs q) ∧
      (compressFile fs env p).2 = []) ∧
    (env.statOk = true → env.createOk = true → env.copyOk = false → 0 < c.utf8ByteSize →
      (compressFile fs env p).1 p = some c ∧
      (compressFile fs env p).1 (p ++ ".gz") = some env.leftoverContent ∧
      (compressFile fs env p).2 ≠ []) := by
  refine ⟨fun hst hz => ?_, fun hst hcr hcp hgz hoc hrm hpos => ?_, fun hst hcr hcp hpos => ?_⟩
  · simp [compressFile, hp, hst, hz]
  · have hz : ¬(c.utf8ByteSize = 0) := by omega
    refine ⟨?_, ?_, fun q hq1 hq2 => ?_, ?_⟩
    · simp [compressFile, hp, hst, hz, hcr, hcp, hgz, hoc, hrm, fsUpdate,
        Ne.symm (gz_path_ne p)]
    · simp [compressFile, hp, hst, hz, hcr, hcp, hgz, hoc, hrm, fsUpdate, gz_path_ne p]
    · simp [compressFile, hp, hst, hz, hcr, hcp, hgz, hoc, hrm, fsUpdate, hq1, hq2]
    · simp [compressFile, hp, hst, hz, hcr, hcp, hgz, hoc, hrm]
  · have hz : ¬(c.utf8ByteSize = 0) := by omega
    refine ⟨?_, ?_, ?_⟩ <;>
      simp [compressFile, hp, hst, hz, hcr, hcp, fsUpdate, gz_path_ne p,
        Ne.symm (gz_path_ne p)]

theorem C7_witness :
    (compressFile fsC7 envC7 "logs/app-2025-01-05.log").1 "logs/app-2025-01-05.log" = none ∧
    (compressFile fsC7 envC7 "logs/app-2025-01-05.log").1 "logs/app-2025-01-05.log.gz" =
      some (gzipOf "payload") ∧
    (compressFile fsC7 envC7 "logs/empty-2025-01-05.log").1 "logs/empty-2025-01-05.log.gz" = none ∧
    (compressFile fsC7 envC7 "logs/empty-2025-01-05.log").1 "logs/empty-2025-01-05.log" = some "" := by
  have hmain := (C7_compress_worker fsC7 envC7 "logs/app-2025-01-05.log" "payload" rfl).2.1
    rfl rfl rfl rfl rfl rfl (by decide)
  have hempty := (C7_compress_worker fsC7 envC7 "logs/empty-2025-01-05.log" "" rfl).1 rfl rfl
  refine ⟨hmain.1, hmain.2.1, ?_, ?_⟩
  · rw [congrFun hempty "logs/empty-2025-01-05.log.gz"]
    decide
  · rw [congrFun hempty "logs/empty-2025-01-05.log"]
    decide

/-- C8 counterexample: the first `Close` succeeds, but a second `Close`
returns the `os.ErrClosed` error (the `file` field is never cleared), so
the second call does not yield the same successful outcome as the
first. -/
theorem C8_counterexample :
    (Close exTimer).2 = none ∧
    (Close (Close exTimer).1).2 = some GoError.errClosed := by
  decide

/-- C8 (amended): `Close` stops and clears the daily timer and closes the
active handle; a second `Close` is safe — it leaves the state unchanged
and does not panic — but returns the file-already-closed error instead of
the first call's success, because the handle field is not cleared; and
any leveled write after `Close` is total and still appends its formatted
message (the underlying `log.Logger` swallows write errors). -/
theorem C8_close_behavior (l : LoggerState) (f : FileHandle) (env : RotEnv) (level body : String)
    (hf : l.file = some f) (hopen : f.closed = false) :
    (Close l).2 = none ∧
    (Close l).1.dailyTimer = false ∧
    (Close l).1.file = some { f with closed := true } ∧
    (Close (Close l).1).2 = some GoError.errClosed ∧
    (Close (Close l).1).1 = (Close l).1 ∧
    (write (Close l).1 env level body).appended = [mkMessage level body] := by
  refine ⟨?_, ?_, ?_, ?_, ?_, write_appended_eq ..⟩ <;>
    simp [Close, hf, hopen]

theorem C8_witness :
    (Close exTimer).2 = none ∧
    (Close exTimer).1.dailyTimer = false ∧
    (Close (Close exTimer).1).2 = some GoError.errClosed ∧
    (write (Close exTimer).1 envOk "INFO" "x").appended = [mkMessage "INFO" "x"] := by
  obtain ⟨a, b, _, d, _, g⟩ :=
    C8_close_behavior exTimer { closed := false, modDay := 0 } envOk "INFO" "x" rfl rfl
  exact ⟨a, b, d, g⟩

/-- C9 counterexample: with environment `"staging"` — which is not
`"production"` — a successful (re)open installs a file-only writer: no
console duplication, refuting "every non-production environment
duplicates output to the console". -/
theorem C9_counterexample :
    ("staging" = "production" → False) ∧
    (openLogFile exStaging envOk).2 = true ∧
    (openLogFile exStaging envOk).1.output = OutputDest.fileOnly := by
  decide

/-- C9 (amended): a successful open installs console duplication exactly
when the environment equals `"development"`; for `"production"` and every
other value the output goes to the file only. -/
theorem C9_console_duplication (l : LoggerState) (env : RotEnv) (info : Int × Int)
    (h : env.openResult = some info) :
    (openLogFile l env).2 = true ∧
    ((openLogFile l env).1.output = OutputDest.fileAndStdout ↔
      l.environment = "development") := by
  rcases hf : l.file <;> rcases hs : env.statOk <;>
    by_cases he : l.environment = "development" <;>
    simp [openLogFile, hf, hs, h, he]

theorem C9_witness :
    (openLogFile exDev envOk).2 = true ∧
    (openLogFile exDev envOk).1.output = OutputDest.fileAndStdout := by
  obtain ⟨a, b⟩ := C9_console_duplication exDev envOk (0, 0) rfl
  exact ⟨a, b.mpr rfl⟩

/-- C10: zero-valued size, backup-count and age configuration fields are
replaced by the defaults (10 MB, 7 backups, 30 days), so zero can never
disable size rotation or retention; any non-zero value — negative values
included — passes through unchanged, and a negative `maxBackups` or
`maxAge` is what disables the corresponding retention pass: with
`maxBackups` negative the count pass deletes nothing, and with both
negative the sweep deletes nothing at all. -/
theorem C10_config_defaults :
    (∀ cfg : LoggingConfig,
      (cfg.MaxSize = 0 → (getLogConfig cfg).MaxSize = 10) ∧
      (cfg.MaxBackups = 0 → (getLogConfig cfg).MaxBackups = 7) ∧
      (cfg.MaxAge = 0 → (getLogConfig cfg).MaxAge = 30) ∧
      (cfg.MaxSize ≠ 0 → (getLogConfig cfg).MaxSize = cfg.MaxSize) ∧
      (cfg.MaxBackups ≠ 0 → (getLogConfig cfg).MaxBackups = cfg.MaxBackups) ∧
      (cfg.MaxAge ≠ 0 → (getLogConfig cfg).MaxAge = cfg.MaxAge)) ∧
    (∀ (l : LoggerState) (now : Int) (files : List FileEnt),
      l.maxBackups < 0 →
      ∀ f, f ∈ cleanOldLogs l now files ↔
        f ∈ consideredFiles l files ∧
        (0 < l.maxAge → now - l.maxAge ≤ f.modTime)) ∧
    (∀ (l : LoggerState) (now : Int) (files : List FileEnt),
      l.maxBackups < 0 → l.maxAge < 0 →
      cleanOldLogs l now files = sortByModDesc (consideredFiles l files)) := by
  refine ⟨fun cfg => ?_, fun l now files hB f => ?_, fun l now files hB hA => ?_⟩
  · refine ⟨fun h => ?_, fun h => ?_, fun h => ?_, fun h => ?_, fun h => ?_, fun h => ?_⟩ <;>
      simp [getLogConfig, getFloat32OrDefault, getIntOrDefault, h]
  · have hc : ¬(0 < l.maxBackups ∧
        l.maxBackups < ((sortByModDesc (consideredFiles l files)).length : Int)) := by
      rintro ⟨h1, _⟩; omega
    simp only [cleanOldLogs]
    rw [if_neg hc]
    by_cases hage : 0 < l.maxAge
    · rw [if_pos hage]
      simp only [List.mem_filter, mem_sortByModDesc, Bool.not_eq_true',
        decide_eq_false_iff_not, not_lt]
      constructor
      · rintro ⟨h1, h2⟩; exact ⟨h1, fun _ => h2⟩
      · rintro ⟨h1, h2⟩; exact ⟨h1, h2 hage⟩
    · rw [if_neg hage]
      simp only [mem_sortByModDesc]
      exact ⟨fun h1 => ⟨h1, fun ha => absurd ha hage⟩, fun h1 => h1.1⟩
  · have hc : ¬(0 < l.maxBackups ∧
        l.maxBackups < ((sortByModDesc (consideredFiles l files)).length : Int)) := by
      rintro ⟨h1, _⟩; omega
    simp only [cleanOldLogs]
    rw [if_neg hc, if_neg (by omega)]

theorem C10_witness :
    (getLogConfig cfgZero).MaxSize = 10 ∧
    (getLogConfig cfgZero).MaxBackups = 7 ∧
    (getLogConfig cfgZero).MaxAge = 30 ∧
    cleanOldLogs exNeg 10 dirFilesW = sortByModDesc (consideredFiles exNeg dirFilesW) := by
  obtain ⟨hcfg, _, hneg⟩ := C10_config_defaults
  obtain ⟨h1, h2, h3, _, _, _⟩ := hcfg cfgZero
  exact ⟨h1 rfl, h2 rfl, h3 rfl, hneg exNeg 10 dirFilesW (by decide) (by decide)⟩

end RotLog
